import Mathlib

/-!
# Verification of the Copernicus compliance/transcription backend

A shallow embedding of the pure cores of the backend services
(`copernicus.services.compliance`, `compliance_filters`, `corrector`,
`task_store`, `pipeline`, `llm`, `utils.text`, and the routers), with
theorems settling the frozen claims C1-C10.

Numbers that Python holds as `float` are modelled as `Rat`; every value
that actually flows through the claims is a small decimal, where the two
agree exactly.  Machine integers do not overflow in any of the embedded
code paths, so `Int`/`Nat` are used directly.
-/

namespace Copernicus

/-! ## Shared data model (`schemas/compliance.py`, `schemas/task.py`) -/

/-- The `Violation` model from `schemas/compliance.py`.  The pydantic `Literal`
fields (`severity`, `status`, `source`) are modelled as `String` plus the
explicit validation predicate `violationSchemaOk` below, mirroring the
validation pydantic performs at construction time. -/
structure Violation where
  rule_id : Int
  rule_content : String
  reason : String
  severity : String := "low"
  confidence : Rat
  status : String := "pending"
  timestamp : String := ""
  timestamp_ms : Int := 0
  end_ms : Int := 0
  speaker : String := ""
  original_text : String := ""
  source : String := "transcript"
  evidence_url : Option String := none
  evidence_text : Option String := none
  rule_ref : Option String := none
  reasoning : Option String := none
deriving Repr, DecidableEq

/-- Allowed values of the `severity` Literal. -/
def validSeverity (s : String) : Bool :=
  s == "high" || s == "medium" || s == "low"

/-- Allowed values of the `status` Literal. -/
def validStatus (s : String) : Bool :=
  s == "pending" || s == "confirmed" || s == "rejected"

/-- Allowed values of the `source` Literal. -/
def validSource (s : String) : Bool :=
  s == "transcript" || s == "ocr" || s == "vision"

/-- The constraints the `Violation` pydantic model places on its Literal
fields; constructing a `Violation` whose fields violate them raises a
`ValidationError` in the source. -/
def violationSchemaOk (v : Violation) : Bool :=
  validSeverity v.severity && validStatus v.status && validSource v.source

/-- The `ComplianceRule` model from `schemas/compliance.py`. -/
structure ComplianceRule where
  id : Int
  content : String
deriving Repr, DecidableEq

/-- The `ComplianceReport` model from `schemas/compliance.py` (the fields the audit
path populates; `source_counts` is never written by `audit` and is left
out). The score is integral in every reachable state, see
`calculate_score`. -/
structure ComplianceReport where
  total_rules : Nat
  total_segments_checked : Nat
  violations : List Violation
  summary : String
  compliance_score : Int
deriving Repr, DecidableEq

/-! ## Scoring and the audit reduce step (`services/compliance.py`) -/

/-- Per-violation deduction of `_calculate_score`: 15 / 8 / 3 for
high / medium / low (the trailing `else` covers `low`). -/
def severityDeduction (severity : String) : Nat :=
  if severity == "high" then 15
  else if severity == "medium" then 8
  else 3

/-- Embedding of `_calculate_score` (compliance.py:367).  The Python computes
`max(0.0, round(100.0 - deduction, 1))` on floats; every deduction is a
whole number, so `round(-, 1)` is the identity and the result is the
integer `max 0 (100 - deduction)`. -/
def calculate_score (violations : List Violation) : Int :=
  max 0 (100 - Int.ofNat
    (violations.foldl (fun acc v => acc + severityDeduction v.severity) 0))

/-- Insert `a` before the first element strictly greater under `lt`,
i.e. after every element whose key ties with or precedes `a`'s. -/
def insertAfterEq (lt : α → α → Bool) (a : α) : List α → List α
  | [] => [a]
  | b :: l => if lt a b then a :: b :: l else b :: insertAfterEq lt a l

/-- A stable sort by the strict comparator `lt`: elements are taken in
input order and each is inserted after its key-ties.  A stable sort is
uniquely determined by its comparator, so this is exactly Python's
`list.sort`/`sorted` with the corresponding key. -/
def stableSortBy (lt : α → α → Bool) (l : List α) : List α :=
  l.foldl (fun acc a => insertAfterEq lt a acc) []

/-- Embedding of the sort `all_violations.sort` keyed by `timestamp_ms` — Python's stable
sort keyed by `timestamp_ms`. -/
def sortByTimestamp (vs : List Violation) : List Violation :=
  stableSortBy (fun a b => a.timestamp_ms < b.timestamp_ms) vs

/-- The pure tail of `ComplianceService.audit` (compliance.py:158-178):
concatenate the per-chunk violation lists in order, sort by
`timestamp_ms`, and assemble the report from the sorted list, the
LLM summary and `_calculate_score`.  No filtering of any kind happens
between the map phase and this reduce step. -/
def auditReduce (totalRules totalSegments : Nat) (summary : String)
    (chunkResults : List (List Violation)) : ComplianceReport :=
  let all := chunkResults.foldl (fun acc vs => acc ++ vs) []
  let sorted := sortByTimestamp all
  { total_rules := totalRules
    total_segments_checked := totalSegments
    violations := sorted
    summary := summary
    compliance_score := calculate_score sorted }

/-! ## Phase-4 batching (`services/corrector.py`) -/

/-- A correction entry (an id paired with its text) as handed to
`CorrectorService.correct_transcript`. -/
structure CorrectionEntry where
  id : Nat
  text : String
deriving Repr, DecidableEq

/-- Length of the entry text — Python `len` counts code points,
as does `String.length`. -/
def entryChars (e : CorrectionEntry) : Nat := e.text.length

/-- Total characters of a batch. -/
def charSum (b : List CorrectionEntry) : Nat := (b.map entryChars).sum

/-- The loop body of `_create_transcript_batches` (corrector.py:341).
`cur`/`curChars` are the mutable `current_batch`/`current_chars`;
the produced batches are returned front-first. -/
def createBatchesLoop (maxEntries maxChars : Nat)
    (cur : List CorrectionEntry) (curChars : Nat) :
    List CorrectionEntry → List (List CorrectionEntry)
  | [] => if cur.isEmpty then [] else [cur]
  | e :: rest =>
    if maxChars < entryChars e then
      (if cur.isEmpty then [] else [cur]) ++
        [e] :: createBatchesLoop maxEntries maxChars [] 0 rest
    else if !cur.isEmpty &&
        (decide (maxEntries ≤ cur.length) ||
         decide (maxChars < curChars + entryChars e)) then
      cur :: createBatchesLoop maxEntries maxChars [e] (entryChars e) rest
    else
      createBatchesLoop maxEntries maxChars (cur ++ [e]) (curChars + entryChars e) rest

/-- Embedding of `CorrectorService._create_transcript_batches`.  `correct_transcript` invokes it with `batch_size = 15` and
`self._chunk_size = settings.correction_chunk_size = 800`. -/
def create_transcript_batches (maxEntries maxChars : Nat)
    (entries : List CorrectionEntry) : List (List CorrectionEntry) :=
  createBatchesLoop maxEntries maxChars [] 0 entries

/-- What C9 requires of a batch under the default limits: non-empty, and
either within both bounds or a lone oversize entry. -/
def goodBatch (b : List CorrectionEntry) : Prop :=
  b ≠ [] ∧
    ((b.length ≤ 15 ∧ charSum b ≤ 800) ∨ ∃ e, b = [e] ∧ 800 < entryChars e)

/-! ## Deduplication filter (`services/compliance_filters.py`) -/

/-- The sort of `DeduplicationFilter.apply`:
`sorted(violations, key=lambda v: (v.rule_id, v.timestamp_ms))`, the
stable sort by the strict lexicographic order on that pair. -/
def sortViolations (vs : List Violation) : List Violation :=
  stableSortBy (fun a b =>
    a.rule_id < b.rule_id ||
      (a.rule_id == b.rule_id && decide (a.timestamp_ms < b.timestamp_ms))) vs

/-- The scan of `DeduplicationFilter.apply` (compliance_filters.py:184).
`prev` is only reassigned when a violation is appended, so merged
violations keep being compared against the last appended one; on a merge
`result[-1] = v` replaces the kept slot when `v.confidence >
prev.confidence`. -/
def dedupLoop (window : Int) (prev : Option Violation)
    (result : List Violation) : List Violation → List Violation
  | [] => result
  | v :: rest =>
    match prev with
    | some p =>
      if p.rule_id = v.rule_id ∧ |v.timestamp_ms - p.timestamp_ms| < window then
        let kept := if p.confidence < v.confidence then result.dropLast ++ [v] else result
        dedupLoop window (some p) kept rest
      else
        dedupLoop window (some v) (result ++ [v]) rest
    | none => dedupLoop window (some v) (result ++ [v]) rest

/-- Embedding of `DeduplicationFilter(window_ms).apply(violations)`. -/
def deduplication_apply (window : Int) (vs : List Violation) : List Violation :=
  if vs.isEmpty then vs
  else dedupLoop window none [] (sortViolations vs)

/-- The merge condition relative to the run anchor `a`. -/
def anchorCond (window : Int) (a v : Violation) : Bool :=
  a.rule_id == v.rule_id && decide (|v.timestamp_ms - a.timestamp_ms| < window)

/-- Survivor of a run against its anchor `a`: the slot starts at `k` and
is replaced by each run member whose confidence strictly exceeds the
anchor's. -/
def runSurvivor (a k : Violation) (run : List Violation) : Violation :=
  run.foldl (fun kept v => if a.confidence < v.confidence then v else kept) k

/-- The amended description of the deduplication scan, written as a
structural recursion over the sorted list: each run is the maximal block
of following violations matching the anchor's rule within the window of
the anchor, and contributes exactly one survivor. -/
def dedupRuns (window : Int) : List Violation → List Violation
  | [] => []
  | a :: rest =>
    let run := rest.takeWhile (anchorCond window a)
    runSurvivor a a run :: dedupRuns window (rest.dropWhile (anchorCond window a))
termination_by l => l.length
decreasing_by
  simp only [List.length_cons]
  exact Nat.lt_succ_of_le (List.dropWhile_sublist _).length_le

/-! ## Violation status PATCH (`routers/compliance.py`) -/

/-- One element of the PATCH body, an index paired with a status.  The
router's pydantic model constrains `status` to the review Literal; the
index is an arbitrary integer. -/
structure StatusUpdate where
  index : Int
  status : String
deriving Repr, DecidableEq

/-- The persisted `compliance.json` document (`ComplianceResponse`). -/
structure ComplianceDoc where
  rules : List ComplianceRule
  report : ComplianceReport
  processing_time_ms : Rat
deriving Repr, DecidableEq

/-- Setting the status of the violation at an in-range index, as a functional
update. -/
def setViolationStatus : List Violation → Nat → String → List Violation
  | [], _, _ => []
  | v :: rest, 0, s => { v with status := s } :: rest
  | v :: rest, i + 1, s => v :: setViolationStatus rest i s

/-- One iteration of the loop in `update_violation_statuses`
(routers/compliance.py:79-81): apply the update only when
`0 <= u.index < len(violations)`. -/
def applyStatusUpdate (doc : ComplianceDoc) (u : StatusUpdate) : ComplianceDoc :=
  if 0 ≤ u.index ∧ u.index < (doc.report.violations.length : Int) then
    { doc with report :=
        { doc.report with violations :=
            setViolationStatus doc.report.violations u.index.toNat u.status } }
  else doc

/-- Embedding of `update_violation_statuses`: the document written back to
`compliance.json` after the PATCH. -/
def update_violation_statuses (doc : ComplianceDoc)
    (updates : List StatusUpdate) : ComplianceDoc :=
  updates.foldl applyStatusUpdate doc

/-- A violation with its `status` field masked, used to state that a
mutation touches nothing but `status`. -/
def maskStatus (v : Violation) : Violation := { v with status := "pending" }

/-- The status the claim predicts at index `j`: the last update naming
`j`, if any, else the original status. -/
def lastStatusFor (updates : List StatusUpdate) (j : Nat) (orig : String) : String :=
  updates.foldl (fun acc u => if u.index = (j : Int) then u.status else acc) orig

/-! ## Violation parsing (`services/compliance.py:_parse_violations`)

The embedding starts from the decoded JSON array (the output of
`json.loads(extract_json_array(raw))` in the well-formed-array case the
claim quantifies over). -/

/-- A decoded JSON scalar, as far as the parser inspects one. -/
inductive JVal where
  | int (n : Int)
  | flo (q : Rat)
  | str (s : String)
  | bool (b : Bool)
  | null
deriving Repr, DecidableEq

/-- Digit-string to `Nat`; `none` on the empty string or a non-digit. -/
def parseNatDigits : List Char → Option Nat
  | [] => none
  | cs => cs.foldl
      (fun acc c => acc.bind fun n =>
        if c.isDigit then some (10 * n + (c.toNat - 48)) else none)
      (some 0)

/-- Python `int(s)` on a trimmed string: optional sign followed by
digits. -/
def parsePyInt (s : String) : Option Int :=
  let t := s.trim
  if t.startsWith "-" then (parseNatDigits (t.drop 1).toList).map (fun n => -(n : Int))
  else if t.startsWith "+" then (parseNatDigits (t.drop 1).toList).map (fun n => (n : Int))
  else (parseNatDigits t.toList).map (fun n => (n : Int))

/-- Python `float(s)` on decimal literals (sign, integer part, optional
fractional part; at least one digit overall).  Exponent and special
forms never occur in the embedded call sites. -/
def parsePyFloat (s : String) : Option Rat :=
  let t := s.trim
  let signed : Int × String :=
    if t.startsWith "-" then (-1, t.drop 1)
    else if t.startsWith "+" then (1, t.drop 1) else (1, t)
  match (signed.2.splitOn ".") with
  | [ip] => (parseNatDigits ip.toList).map (fun n => (signed.1 * n : Int))
  | [ip, fp] =>
    let ipl := ip.toList
    let fpl := fp.toList
    if ipl.isEmpty && fpl.isEmpty then none
    else if !(ipl.all Char.isDigit && fpl.all Char.isDigit) then none
    else
      let ipn : Nat := (parseNatDigits ipl).getD 0
      let fpn : Nat := (parseNatDigits fpl).getD 0
      some (signed.1 * ((ipn : Rat) + (fpn : Rat) / ((10 : Rat) ^ fpl.length)))
  | _ => none

/-- Python `int(value)` over decoded JSON values; `none` models the
`TypeError`/`ValueError` cases that `_safe_int` catches.  `int` on a
float truncates toward zero. -/
def pyIntOf : JVal → Option Int
  | .int n => some n
  | .flo q => some (if q < 0 then -((-q).floor) else q.floor)
  | .str s => parsePyInt s
  | .bool b => some (if b then 1 else 0)
  | .null => none

/-- Embedding of `_safe_int` (compliance.py:393). -/
def safe_int (v : JVal) (d : Int) : Int := (pyIntOf v).getD d

/-- Python `float(value)` over decoded JSON values. -/
def pyFloatOf : JVal → Option Rat
  | .int n => some n
  | .flo q => some q
  | .str s => parsePyFloat s
  | .bool b => some (if b then 1 else 0)
  | .null => none

/-- Embedding of `_safe_float` (compliance.py:401). -/
def safe_float (v : JVal) (d : Rat) : Rat := (pyFloatOf v).getD d

/-- Python `str(value)` over decoded JSON values. -/
def pyStrOf : JVal → String
  | .int n => toString n
  | .flo q => toString q
  | .str s => s
  | .bool b => if b then "True" else "False"
  | .null => "None"

/-- ASCII lower-casing of one character. -/
def lowerChar (c : Char) : Char :=
  if 'A' ≤ c ∧ c ≤ 'Z' then Char.ofNat (c.toNat + 32) else c

/-- Python `s.lower()` for the ASCII range used by severity labels. -/
def pyLower (s : String) : String := String.mk (s.toList.map lowerChar)

/-- Embedding of `_parse_timestamp_to_ms` (compliance.py:380): MM:SS or HH:MM:SS to
milliseconds, `0` on any parse failure. -/
def parse_timestamp_to_ms (ts : String) : Int :=
  match (ts.trim.splitOn ":").map parsePyInt with
  | [some m, some s] => (m * 60 + s) * 1000
  | [some h, some m, some s] => (h * 3600 + m * 60 + s) * 1000
  | _ => 0

/-- One element of the decoded violations array, restricted to the keys
`_parse_violations` reads.  An absent key is `none` (`dict.get` default).
The fields the parser immediately passes through `str(...)` (or the
`rule_content` fallback chain) are carried as the string values the LLM
is instructed to produce. -/
structure LLMItem where
  rule_id : Option JVal := none
  rule_content : Option String := none
  timestamp : Option JVal := none
  timestamp_ms : Option JVal := none
  end_ms : Option JVal := none
  speaker : Option String := none
  original_text : Option String := none
  reason : Option String := none
  severity : Option JVal := none
  confidence : Option JVal := none
deriving Repr, DecidableEq

/-- Association-list lookup standing in for a Python `dict` keyed by
strings. -/
def lookupStr (m : List (String × Int)) (k : String) : Option Int :=
  (m.find? (fun p => p.1 == k)).map (·.2)

/-- Association-list lookup for the id-to-content rules map. -/
def lookupRule (rules : List ComplianceRule) (i : Int) : Option String :=
  (rules.find? (fun r => r.id == i)).map (·.content)

/-- The body of the `for item in data` loop of `_parse_violations`
(compliance.py:445-483), producing the `Violation` the Python passes to
the pydantic constructor.  Note the hard-coded `source="audio"`. -/
def parseViolationItem (rules : List ComplianceRule)
    (tsToMs tsToEndMs : List (String × Int)) (item : LLMItem) : Violation :=
  let rule_id := safe_int (item.rule_id.getD (.int 0)) 0
  let rule_content :=
    match item.rule_content with
    | some s => if s = "" then (lookupRule rules rule_id).getD "" else s
    | none => (lookupRule rules rule_id).getD ""
  let ts_str := pyStrOf (item.timestamp.getD (.str "00:00"))
  let llm_ts_ms := safe_int (item.timestamp_ms.getD (.int 0)) 0
  let llm_end_ms := safe_int (item.end_ms.getD (.int 0)) 0
  let raw_severity := pyLower (pyStrOf (item.severity.getD (.str "low")))
  let severity := if validSeverity raw_severity then raw_severity else "low"
  let precise : Int × Int :=
    if tsToMs ≠ [] ∧ (lookupStr tsToMs ts_str).isSome then
      ((lookupStr tsToMs ts_str).getD 0,
        if tsToEndMs ≠ [] then (lookupStr tsToEndMs ts_str).getD 0 else 0)
    else
      ((if llm_ts_ms = 0 then parse_timestamp_to_ms ts_str else llm_ts_ms), llm_end_ms)
  { rule_id := rule_id
    rule_content := rule_content
    timestamp := ts_str
    timestamp_ms := precise.1
    end_ms := if precise.2 ≠ 0 then precise.2 else precise.1
    speaker := item.speaker.getD ""
    original_text := item.original_text.getD ""
    reason := item.reason.getD ""
    severity := severity
    confidence := safe_float (item.confidence.getD (.flo (mkRat 1 2))) (mkRat 1 2)
    source := "audio" }

/-- Embedding of `_parse_violations` on a decoded array of objects: each loop
iteration constructs a `Violation` through the pydantic model, whose
Literal validation raises out of the function on the first invalid
field. -/
def parse_violations (rules : List ComplianceRule)
    (tsToMs tsToEndMs : List (String × Int)) :
    List LLMItem → Except String (List Violation)
  | [] => .ok []
  | item :: rest =>
    let v := parseViolationItem rules tsToMs tsToEndMs item
    if violationSchemaOk v then
      (parse_violations rules tsToMs tsToEndMs rest).map (v :: ·)
    else
      .error "pydantic ValidationError"

/-! ## Rule registry (`services/rule_registry.py`) -/

/-- The `StructuredRule` record (rule_registry.py:34). -/
structure StructuredRule where
  id : Int
  title : String
  content : String
  category : String
  check_mode : String
  evidence_sources : List String := ["transcript"]
  keywords : List String := []
  description : String := ""
  severity_default : String := "medium"
deriving Repr, DecidableEq

/-- Built-in rule 12 (禁止混淆概念), the one `check_mode="exact"` rule
used by the theorems below; description text elided. -/
def builtinRule12 : StructuredRule :=
  { id := 12
    title := "禁止混淆概念"
    content := "不得将保险产品与银行存款、基金等混淆，不得使用存取、利息、本金等概念"
    category := "forbidden_phrase"
    check_mode := "exact"
    evidence_sources := ["transcript", "ocr"]
    keywords := ["存取", "利息", "本金", "存款", "储蓄", "存钱", "取钱", "利率"]
    severity_default := "high" }

/-- Built-in rule 13 (禁止不当用语); description text elided. -/
def builtinRule13 : StructuredRule :=
  { id := 13
    title := "禁止不当用语"
    content := "不得使用保证、保种水平、零风险等不当用语描述保险产品"
    category := "forbidden_phrase"
    check_mode := "exact"
    evidence_sources := ["transcript", "ocr"]
    keywords := ["保种水平", "保证水平", "零风险", "无风险", "绝对安全", "百分百", "100%赔付"]
    severity_default := "high" }

/-- Embedding of `_EXACT_PATTERNS` / `RuleRegistry.get_exact_pattern`: of the 13
built-in rules only 12 and 13 have `check_mode="exact"` with keywords,
so these are the only entries.  The compiled regex is a `re.escape`d
alternation of the keywords, i.e. a leftmost literal multi-pattern
search. -/
def exactPatternKeywords (ruleId : Int) : Option (List String) :=
  if ruleId = 12 then some builtinRule12.keywords
  else if ruleId = 13 then some builtinRule13.keywords
  else none

/-- The library `pypinyin.lazy_pinyin`, an external collaborator, modelled as a pure
character-to-toneless-syllable table over the characters appearing in
this development (the spec treats pinyin as exactly such a pure
function).  Characters outside the table — and in particular non-Chinese
characters, which the library passes through — map to themselves; runs
of non-Chinese characters are modelled per character. -/
def pinyinChar (c : Char) : String :=
  if c = '存' then "cun" else if c = '取' then "qu"
  else if c = '利' then "li" else if c = '息' then "xi"
  else if c = '本' then "ben" else if c = '金' then "jin"
  else if c = '款' then "kuan" else if c = '储' then "chu"
  else if c = '蓄' then "xu" else if c = '钱' then "qian"
  else if c = '率' then "lv" else if c = '保' then "bao"
  else if c = '种' then "zhong" else if c = '水' then "shui"
  else if c = '平' then "ping" else if c = '证' then "zheng"
  else if c = '零' then "ling" else if c = '风' then "feng"
  else if c = '险' then "xian" else if c = '无' then "wu"
  else if c = '绝' then "jue" else if c = '对' then "dui"
  else if c = '安' then "an" else if c = '全' then "quan"
  else if c = '百' then "bai" else if c = '分' then "fen"
  else if c = '赔' then "pei" else if c = '付' then "fu"
  else if c = '投' then "tou" else if c = '年' then "nian"
  else if c = '龄' then "ling" else if c = '是' then "shi"
  else if c = '八' then "ba" else if c = '到' then "dao"
  else if c = '六' then "liu" else if c = '十' then "shi"
  else if c = '五' then "wu" else if c = '岁' then "sui"
  else String.singleton c

/-- Embedding of `_text_to_pinyin` (compliance_filters.py:270). -/
def lazyPinyin (s : String) : List String := s.toList.map pinyinChar

/-- Space-joined pinyin of a keyword, as in the registry pinyin index. -/
def joinPinyin (kw : String) : String := String.intercalate " " (lazyPinyin kw)

/-- Embedding of `_EXACT_PINYIN` / `RuleRegistry.get_pinyin_patterns`. -/
def exactPinyinPatterns (ruleId : Int) : Option (List (String × String)) :=
  (exactPatternKeywords ruleId).map (·.map (fun kw => (kw, joinPinyin kw)))

/-! ## Filter chain (`services/compliance_filters.py`) -/

/-- Leftmost multi-literal search: first position where one of the
alternatives matches; at equal positions, the first alternative in
pattern order wins — exactly `re.search` on an escaped alternation.
Returns the match position and the matched keyword. -/
def altSearchAux (kws : List (List Char)) : List Char → Nat → Option (Nat × List Char)
  | [], _ => none
  | c :: rest, i =>
    match kws.find? (fun kw => kw.isPrefixOf (c :: rest)) with
    | some kw => some (i, kw)
    | none => altSearchAux kws rest (i + 1)

/-- Embedding of `pattern.search(text)` for the keyword-alternation patterns (the
keywords are all non-empty, so no empty-string match arises). -/
def patternSearch (kws : List String) (text : String) : Option (Nat × String) :=
  (altSearchAux (kws.map String.toList) text.toList 0).map
    (fun r => (r.1, String.mk r.2))

/-- Embedding of `_pinyin_contains` (compliance_filters.py:275): fixed-length sliding
window over the syllable list. -/
def pinyinContains (textPinyin : List String) (keywordPinyin : String)
    (keywordLen : Nat) : Option Nat :=
  if textPinyin.length < keywordLen then none
  else (List.range (textPinyin.length - keywordLen + 1)).find?
    (fun i => String.intercalate " " ((textPinyin.drop i).take keywordLen)
        == keywordPinyin)

/-- Embedding of `ExactMatchValidator._pinyin_match` (compliance_filters.py:164). -/
def pinyinMatch (text : String) (patterns : List (String × String)) :
    Option String :=
  if text = "" then none
  else
    let textPinyin := lazyPinyin text
    ((patterns.find? (fun p =>
      (pinyinContains textPinyin p.2 p.1.length).isSome)).map (·.1))

/-- Embedding of `_extract_context` (compliance_filters.py:297). -/
def extract_context (text : String) (pos radius : Nat) : String :=
  let cs := text.toList
  let start := pos - radius
  let stop := min cs.length (pos + radius)
  String.mk ((cs.drop start).take (stop - start))

/-- Embedding of `ConfidenceFilter(threshold).apply` (compliance_filters.py:29). -/
def confidenceFilter_apply (threshold : Rat) (violations : List Violation) :
    List Violation :=
  violations.filter (fun v => threshold ≤ v.confidence)

/-- The per-violation keep/drop decision of `ExactMatchValidator.apply`
(compliance_filters.py:69-95). -/
def exactMatchKeeps (exactIds : List Int) (v : Violation) : Bool :=
  if !(exactIds.contains v.rule_id) then true
  else
    match exactPatternKeywords v.rule_id with
    | none => true
    | some kws =>
      if (patternSearch kws v.original_text).isSome then true
      else
        match exactPinyinPatterns v.rule_id with
        | some pats => !pats.isEmpty && (pinyinMatch v.original_text pats).isSome
        | none => false

/-- The supplement scan of `ExactMatchValidator.apply`
(compliance_filters.py:97-158): for each exact rule the LLM did not
report, synthesize a violation on a regex hit over the full text
(`confidence=1.0`), else on a pinyin hit (`confidence=0.95`). -/
def exactMatchSupplement (reported : List Int) (fullText : String) :
    List StructuredRule → List Violation
  | [] => []
  | rule :: rest =>
    if reported.contains rule.id then exactMatchSupplement reported fullText rest
    else
      match exactPatternKeywords rule.id with
      | none => exactMatchSupplement reported fullText rest
      | some kws =>
        match patternSearch kws fullText with
        | some (pos, kw) =>
          { rule_id := rule.id
            rule_content := rule.content
            timestamp := "00:00"
            timestamp_ms := 0
            end_ms := 0
            speaker := ""
            original_text := extract_context fullText pos 80
            reason := "精确匹配检测到禁止用语「" ++ kw ++ "」"
            severity := rule.severity_default
            confidence := 1
            source := "transcript" } :: exactMatchSupplement reported fullText rest
        | none =>
          match exactPinyinPatterns rule.id with
          | none => exactMatchSupplement reported fullText rest
          | some pats =>
            if pats.isEmpty then exactMatchSupplement reported fullText rest
            else
              match pinyinMatch fullText pats with
              | some kw =>
                { rule_id := rule.id
                  rule_content := rule.content
                  timestamp := "00:00"
                  timestamp_ms := 0
                  end_ms := 0
                  speaker := ""
                  original_text := extract_context fullText 0 80
                  reason := "拼音匹配检测到禁止用语同音字（对应「" ++ kw ++ "」）"
                  severity := rule.severity_default
                  confidence := mkRat 95 100
                  source := "transcript" } :: exactMatchSupplement reported fullText rest
              | none => exactMatchSupplement reported fullText rest

/-- Embedding of `ExactMatchValidator.apply` (compliance_filters.py:56). -/
def exactMatchValidator_apply (violations : List Violation)
    (rules : List StructuredRule) (fullText : String) : List Violation :=
  let exactRules := rules.filter (fun r => r.check_mode == "exact")
  if exactRules.isEmpty then violations
  else
    let exactIds := exactRules.map (·.id)
    let validated := violations.filter (exactMatchKeeps exactIds)
    validated ++ exactMatchSupplement (validated.map (·.rule_id)) fullText exactRules

/-- An OCR record as consumed by `EvidenceEnricher`. -/
structure OcrRecord where
  timestamp_ms : Int
  text : String
  frame_path : String := ""
deriving Repr, DecidableEq

/-- Embedding of `_find_nearest_ocr` (compliance_filters.py:304): strictly closer
records win, so the earliest record at the best distance is kept. -/
def find_nearest_ocr (ts : Int) (ocr : List OcrRecord) (margin : Int) :
    Option OcrRecord :=
  (ocr.foldl
    (fun acc o =>
      if |o.timestamp_ms - ts| < acc.2 then (some o, |o.timestamp_ms - ts|) else acc)
    ((none : Option OcrRecord), margin + 1)).1

/-- Embedding of `os.path.basename` for POSIX paths. -/
def osBasename (p : String) : String := ((p.splitOn "/").getLast?).getD p

/-- Embedding of `EvidenceEnricher.apply` (compliance_filters.py:216); an empty OCR
list models the falsy `None`/`[]` argument. -/
def evidenceEnricher_apply (violations : List Violation)
    (ocr : List OcrRecord) : List Violation :=
  if ocr.isEmpty then violations
  else
    violations.map (fun v =>
      if (match v.evidence_text with | some s => s ≠ "" | none => False : Bool)
          || v.source ≠ "transcript" then v
      else
        match find_nearest_ocr v.timestamp_ms ocr 10000 with
        | some best =>
          { v with
            evidence_text := some best.text
            evidence_url :=
              if best.frame_path ≠ "" then some (osBasename best.frame_path)
              else v.evidence_url }
        | none => v)

/-- Embedding of `run_filters` (compliance_filters.py:242): confidence filter, exact
match validation (when rules are given), dedup, evidence enrichment,
then re-sort by time.  An empty `rules`/`ocr` list models the falsy
`None` default. -/
def run_filters (violations : List Violation) (rules : List StructuredRule)
    (fullText : String) (ocr : List OcrRecord)
    (confidenceThreshold : Rat) (dedupWindowMs : Int) : List Violation :=
  let r1 := confidenceFilter_apply confidenceThreshold violations
  let r2 := if rules.isEmpty then r1
    else exactMatchValidator_apply r1 rules fullText
  let r3 := deduplication_apply dedupWindowMs r2
  let r4 := evidenceEnricher_apply r3 ocr
  sortByTimestamp r4

/-! ## Transcript pipeline (`services/pipeline.py`, `utils/text.py`,
`services/task_store.py`) -/

/-- The `SubSentence` record from `services/asr.py`. -/
structure SubSentence where
  text : String
  start_ms : Int
  end_ms : Int
deriving Repr, DecidableEq

/-- The `Segment` record from `services/asr.py` (the fields the transcript pipeline
reads). -/
structure Segment where
  text : String
  start_ms : Int
  end_ms : Int
  confidence : Rat := 0
  speaker : Int := -1
  sub_sentences : List SubSentence := []
deriving Repr, DecidableEq

/-- Embedding of `_to_sub` inside `pre_merge_segments`. -/
def toSub (seg : Segment) : SubSentence :=
  { text := seg.text, start_ms := seg.start_ms, end_ms := seg.end_ms }

/-- The interior sweep of `smooth_speakers` (utils/text.py:146): indices
walk left to right and each reassignment is visible to the next
comparison, so the predecessor is the already-smoothed segment. -/
def smoothAux (maxDur : Int) (prev : Segment) : List Segment → List Segment
  | cur :: next :: rest =>
    let cur' :=
      if cur.speaker ≠ prev.speaker ∧ prev.speaker = next.speaker ∧
          cur.end_ms - cur.start_ms < maxDur then
        { cur with speaker := prev.speaker }
      else cur
    cur' :: smoothAux maxDur cur' (next :: rest)
  | l => l

/-- Embedding of `smooth_speakers(segments, max_duration_ms=1500)`; lists shorter
than 3 are returned unchanged. -/
def smooth_speakers (segments : List Segment) (maxDur : Int := 1500) :
    List Segment :=
  match segments with
  | a :: rest =>
    if segments.length < 3 then segments else a :: smoothAux maxDur a rest
  | [] => []

/-- The accumulation loop of `pre_merge_segments` (utils/text.py:82):
merge a following same-speaker segment whose gap to the current merged
segment is below `gap`, length-weighting the confidence. -/
def preMergeLoop (gap : Int) (cur : Segment) : List Segment → List Segment
  | [] => [cur]
  | seg :: rest =>
    if seg.speaker = cur.speaker ∧ seg.start_ms - cur.end_ms < gap then
      let lenCur : Nat := cur.text.length
      let lenSeg : Nat := seg.text.length
      let conf :=
        if 0 < lenCur + lenSeg then
          (cur.confidence * lenCur + seg.confidence * lenSeg) / ((lenCur : Rat) + lenSeg)
        else cur.confidence
      preMergeLoop gap
        { cur with
          text := cur.text ++ seg.text
          end_ms := seg.end_ms
          confidence := conf
          sub_sentences := cur.sub_sentences ++ [toSub seg] } rest
    else cur :: preMergeLoop gap { seg with sub_sentences := [toSub seg] } rest

/-- Embedding of `pre_merge_segments(segments, gap_ms)`; the initial accumulator is a
copy of the first segment carrying itself as its only sub-sentence. -/
def pre_merge_segments (gap : Int) : List Segment → List Segment
  | [] => []
  | s :: rest => preMergeLoop gap { s with sub_sentences := [toSub s] } rest

/-- Helper for `format_timestamp` (utils/text.py:74): Python `//` and `%` are floor
division and floor modulus, and the `02d` format pads to two digits. -/
def pad2 (n : Int) : String :=
  let s := toString n
  if s.length < 2 then "0" ++ s else s

/-- Embedding of `format_timestamp(ms)` producing the MM:SS display string. -/
def format_timestamp (ms : Int) : String :=
  let totalSeconds := Int.fdiv ms 1000
  let minutes := Int.fdiv totalSeconds 60
  let seconds := Int.emod totalSeconds 60
  pad2 minutes ++ ":" ++ pad2 seconds

/-- A transcript entry as built by `process_transcript` (both the raw
dict and the `TranscriptEntry` dataclass carry exactly these five
fields — in particular no `end_ms`). -/
structure TranscriptEntry where
  timestamp : String
  timestamp_ms : Int
  speaker : String
  text : String
  text_corrected : String
deriving Repr, DecidableEq

/-- Lookup in the correction map `dict[int, str]`. -/
def lookupCorrection (cmap : List (Nat × String)) (i : Nat) : Option String :=
  (cmap.find? (fun p => p.1 == i)).map (·.2)

/-- Step 3 of `process_transcript` (pipeline.py:310-325): build raw
entries, skipping segments whose corrected text is the empty string
(phase-1 noise), and labelling speakers. -/
def buildRawEntries (cmap : List (Nat × String)) (i : Nat) :
    List Segment → List TranscriptEntry
  | [] => []
  | seg :: rest =>
    let corrected := (lookupCorrection cmap i).getD seg.text
    if corrected = "" then buildRawEntries cmap (i + 1) rest
    else
      { timestamp := format_timestamp seg.start_ms
        timestamp_ms := seg.start_ms
        speaker :=
          if 0 ≤ seg.speaker then "Speaker " ++ toString (seg.speaker + 1)
          else "Speaker 1"
        text := seg.text
        text_corrected := corrected } :: buildRawEntries cmap (i + 1) rest

/-- The loop of `merge_transcript_entries` (utils/text.py:171):
consecutive same-speaker entries whose start-time gap is below the
threshold are concatenated. -/
def mergeEntriesLoop (gap : Int) (cur : TranscriptEntry) :
    List TranscriptEntry → List TranscriptEntry
  | [] => [cur]
  | e :: rest =>
    if e.speaker = cur.speaker ∧ e.timestamp_ms - cur.timestamp_ms < gap then
      mergeEntriesLoop gap
        { cur with
          text := cur.text ++ e.text
          text_corrected := cur.text_corrected ++ e.text_corrected } rest
    else cur :: mergeEntriesLoop gap e rest

/-- Embedding of `merge_transcript_entries(entries, gap_threshold_ms)`. -/
def merge_transcript_entries (gap : Int) : List TranscriptEntry → List TranscriptEntry
  | [] => []
  | e :: rest => mergeEntriesLoop gap e rest

/-- The entry-building core of `PipelineService.process_transcript`
(pipeline.py:288-348): speaker smoothing, pre-merge with
`pre_merge_gap_ms = 1000`, entry construction from the correction map
(an input here — the corrector itself is modelled separately), and the
same-speaker merge with `gap_threshold_ms = 5000`. -/
def process_transcript_entries (segments : List Segment)
    (cmap : List (Nat × String)) : List TranscriptEntry :=
  match segments with
  | [] => []
  | _ =>
    let smoothed := smooth_speakers segments
    let merged := pre_merge_segments 1000 smoothed
    merge_transcript_entries 5000 (buildRawEntries cmap 0 merged)

/-- The `TranscriptEntrySchema` model (schemas/transcription.py:29) with its
`end_ms: int = 0` default. -/
structure TranscriptEntrySchema where
  timestamp : String
  timestamp_ms : Int
  end_ms : Int := 0
  speaker : String
  text : String
  text_corrected : String
deriving Repr, DecidableEq

/-- The schema conversion in `TaskStore._run_transcript`
(task_store.py:447-459): `TranscriptEntrySchema(timestamp=..,
timestamp_ms=.., speaker=.., text=.., text_corrected=..)` — `end_ms` is
not passed and takes its default. -/
def entryToSchema (e : TranscriptEntry) : TranscriptEntrySchema :=
  { timestamp := e.timestamp
    timestamp_ms := e.timestamp_ms
    speaker := e.speaker
    text := e.text
    text_corrected := e.text_corrected }

/-- The transcript list persisted to `transcript.json` and returned as
the task result, for given ASR segments and correction map. -/
def stored_transcript (segments : List Segment) (cmap : List (Nat × String)) :
    List TranscriptEntrySchema :=
  (process_transcript_entries segments cmap).map entryToSchema

/-! ## Transcript worker (`services/task_store.py:_run_transcript`) -/

/-- The observable outcome of the transcript worker: final task status,
error message, and whether `transcript.json` was written. -/
structure WorkerOutcome where
  status : String
  error : Option String
  persisted : Bool
deriving Repr, DecidableEq

/-- Embedding of `TaskStore._run_transcript` (task_store.py:425-469) mapped over the
pipeline outcome: on success the task completes and the transcript is
persisted; on an exception the task fails with that exception's
message.  No other transition exists — in particular nothing consults
`settings.task_timeout_seconds`. -/
def run_transcript_worker (pipelineOutcome : Except String (List TranscriptEntrySchema)) :
    WorkerOutcome :=
  match pipelineOutcome with
  | .ok _ => { status := "completed", error := none, persisted := true }
  | .error msg => { status := "failed", error := some msg, persisted := false }

/-! ## Transcript submission endpoint (`routers/task.py`,
`services/task_store.py`) -/

/-- Association-list lookup for the hash index `dict[str, str]`. -/
def lookupHash (m : List (String × String)) (k : String) : Option String :=
  (m.find? (fun p => p.1 == k)).map (·.2)

/-- Deletion of a key from the hash index. -/
def eraseHash (m : List (String × String)) (k : String) : List (String × String) :=
  m.filter (fun p => p.1 ≠ k)

/-- Assignment into the hash index (overwrite or append). -/
def setHash : List (String × String) → String → String → List (String × String)
  | [], k, v => [(k, v)]
  | (k', v') :: rest, k, v =>
    if k' = k then (k, v) :: rest else (k', v') :: setHash rest k v

/-- The server state the submission path touches: the hash index and
the set of task ids whose `transcript.json` exists on disk. -/
structure SubmitState where
  hashIndex : List (String × String)
  completed : List String
deriving Repr, DecidableEq

/-- Embedding of the transcript-existence check of the persistence layer. -/
def hasTranscriptFile (st : SubmitState) (tid : String) : Bool :=
  st.completed.contains tid

/-- Embedding of `TaskStore.lookup_by_hash` (task_store.py:114-124): a hit whose
transcript is missing is a stale entry and is evicted from the index. -/
def lookup_by_hash (st : SubmitState) (fileHash : String) :
    Option String × SubmitState :=
  match lookupHash st.hashIndex fileHash with
  | none => (none, st)
  | some tid =>
    if hasTranscriptFile st tid then (some tid, st)
    else (none, { st with hashIndex := eraseHash st.hashIndex fileHash })

/-- The `TaskSubmitResponse` of the endpoint. -/
structure SubmitResponse where
  task_id : String
  status : String
  existing : Bool := false
deriving Repr, DecidableEq

/-- Embedding of `submit_transcript_task` (routers/task.py:31-87) restricted to its
dedup logic: on an index hit with an existing transcript, answer with
the stored id and `existing=true`; otherwise register a fresh task
(`TaskStore.submit_transcript`, which records `hash → fresh id` in the
index) and answer `existing=false` (the response-model default). -/
def submit_transcript_endpoint (st : SubmitState) (fileHash freshId : String) :
    SubmitResponse × SubmitState :=
  match lookup_by_hash st fileHash with
  | (some tid, st') =>
    ({ task_id := tid, status := "completed", existing := true }, st')
  | (none, st') =>
    ({ task_id := freshId, status := "pending", existing := false },
      { st' with hashIndex := setHash st'.hashIndex fileHash freshId })

/-! ## LLM client retry loop (`services/llm.py`) -/

/-- The exception classes that can abort a chat attempt. -/
inductive ChatError where
  | readTimeout
  | connectError
  | httpStatus (code : Nat)
  | other (msg : String)
deriving Repr, DecidableEq

/-- The `except (httpx.ReadTimeout, httpx.ConnectError,
httpx.HTTPStatusError)` clause of `OllamaClient.chat` (llm.py:106).
`HTTPStatusError` is what `raise_for_status()` raises for **every**
non-2xx status — 4xx and 5xx alike. -/
def caughtByRetry : ChatError → Bool
  | .readTimeout => true
  | .connectError => true
  | .httpStatus _ => true
  | .other _ => false

instance {ε α : Type} [DecidableEq ε] [DecidableEq α] : DecidableEq (Except ε α)
  | .ok a, .ok b => if h : a = b then .isTrue (by rw [h]) else .isFalse (by simp [h])
  | .ok _, .error _ => .isFalse (by simp)
  | .error _, .ok _ => .isFalse (by simp)
  | .error e, .error f => if h : e = f then .isTrue (by rw [h]) else .isFalse (by simp [h])

/-- Observable trace of one `chat` call: attempts actually executed, the
back-off sleeps performed between them, and the final outcome. -/
structure ChatTrace where
  attemptsMade : Nat
  delays : List Rat
  outcome : Except ChatError String
deriving Repr, DecidableEq

/-- The retry loop of `OllamaClient.chat` (llm.py:94-120), driven by an
oracle giving each attempt's result.  A caught error before the last
attempt sleeps `retry_delay * 2^(attempt-1)` and retries; on the last
attempt it propagates; an uncaught error propagates immediately. -/
def chatAttempts (oracle : Nat → Except ChatError String) (retryDelay : Rat)
    (maxAttempts : Nat) (attempt : Nat) (delays : List Rat) : ChatTrace :=
  match oracle attempt with
  | .ok c => { attemptsMade := attempt, delays := delays, outcome := .ok c }
  | .error e =>
    if caughtByRetry e then
      if _h : maxAttempts ≤ attempt then
        { attemptsMade := attempt, delays := delays, outcome := .error e }
      else
        chatAttempts oracle retryDelay maxAttempts (attempt + 1)
          (delays ++ [retryDelay * 2 ^ (attempt - 1)])
    else { attemptsMade := attempt, delays := delays, outcome := .error e }
termination_by maxAttempts - attempt

/-- Embedding of `OllamaClient.chat` with `max_attempts = 1 + max_retries`
(llm.py:92). -/
def chat (oracle : Nat → Except ChatError String) (maxRetries : Nat)
    (retryDelay : Rat) : ChatTrace :=
  chatAttempts oracle retryDelay (1 + maxRetries) 1 []

/-! ## Concrete inputs used by the theorems below -/

/-- A well-formed violation object as the LLM is instructed to emit it
(the shape also used by the repository's own
`test_low_confidence_filtered`). -/
def c1Item : LLMItem :=
  { rule_id := some (.int 9)
    timestamp := some (.str "00:30")
    timestamp_ms := some (.int 30000)
    end_ms := some (.int 45000)
    speaker := some "讲师"
    original_text := some "投保年龄8到65岁"
    reason := some "涉及夸大"
    severity := some (.str "medium")
    confidence := some (.flo (mkRat 2 5)) }

/-- The rule list accompanying `c1Item`. -/
def c1Rules : List ComplianceRule := [{ id := 9, content := "不得夸大经营成果" }]

/-- A high-confidence violation the LLM reports against exact rule 12
whose `original_text` contains no rule-12 keyword (and no pinyin
homophone of one) — the false positive the filter chain exists to
drop. -/
def c2Bad : Violation :=
  { rule_id := 12
    rule_content := "禁止混淆概念"
    reason := "误报"
    severity := "high"
    confidence := mkRat 9 10
    timestamp := "00:30"
    timestamp_ms := 30000
    end_ms := 45000
    speaker := "讲师"
    original_text := "投保年龄是八到六十五岁" }

/-- The full transcript text for the `c2Bad` scenario. -/
def c2FullText : String := "投保年龄是八到六十五岁"

/-- Server state after a first submission of a file with hash "h1":
the index maps the hash to task "t1", whose worker has not yet written
`transcript.json`. -/
def c4StateAfterFirst : SubmitState :=
  { hashIndex := [("h1", "t1")], completed := [] }

/-- Server state in which task "t1" has completed and persisted its
transcript. -/
def c4StateDone : SubmitState :=
  { hashIndex := [("h1", "t1")], completed := ["t1"] }

/-- A single ASR segment starting at 61 s. -/
def c6Segment : Segment :=
  { text := "你好", start_ms := 61000, end_ms := 62000, confidence := mkRat 9 10, speaker := 0 }

/-- Three same-rule violations 10 s apart; confidences 0.5 / 0.9 / 0.7. -/
def c8V1 : Violation :=
  { rule_id := 1, rule_content := "r", reason := "a", severity := "high",
    confidence := mkRat 1 2, timestamp_ms := 0 }

/-- Second violation of the C8 chain (the highest confidence). -/
def c8V2 : Violation :=
  { rule_id := 1, rule_content := "r", reason := "b", severity := "high",
    confidence := mkRat 9 10, timestamp_ms := 10000 }

/-- Third violation of the C8 chain. -/
def c8V3 : Violation :=
  { rule_id := 1, rule_content := "r", reason := "c", severity := "high",
    confidence := mkRat 7 10, timestamp_ms := 20000 }

/-! ## Helper lemmas -/

theorem foldl_deduction (vs : List Violation) (n : Nat) :
    vs.foldl (fun acc v => acc + severityDeduction v.severity) n
      = n + (vs.map (fun v => severityDeduction v.severity)).sum := by
  induction vs generalizing n with
  | nil => simp
  | cons v rest ih => simp [ih, Nat.add_assoc]

theorem calculate_score_eq (vs : List Violation) :
    calculate_score vs
      = max 0 (100 -
          (vs.map (fun v => (severityDeduction v.severity : Int))).sum) := by
  unfold calculate_score
  rw [foldl_deduction]
  congr 1
  rw [Nat.zero_add, Int.ofNat_eq_natCast, Nat.cast_list_sum, List.map_map]
  rfl

/-- C3: in every report assembled by the audit reduce step, the
compliance score equals `max(0, 100 − Σ deduction)` over exactly the
violations carried by that report, with deductions 15 / 8 / 3 for
severity high / medium / low. -/
theorem audit_compliance_score_formula (totalRules totalSegments : Nat)
    (summary : String) (chunkResults : List (List Violation)) :
    (auditReduce totalRules totalSegments summary chunkResults).compliance_score
      = max 0 (100 -
          ((auditReduce totalRules totalSegments summary chunkResults).violations.map
            (fun v => (severityDeduction v.severity : Int))).sum) :=
  calculate_score_eq _

theorem charSum_append (a b : List CorrectionEntry) :
    charSum (a ++ b) = charSum a + charSum b := by
  simp [charSum]

theorem createBatchesLoop_spec (l : List CorrectionEntry) :
    ∀ cur curChars, curChars = charSum cur → cur.length ≤ 15 → charSum cur ≤ 800 →
      (createBatchesLoop 15 800 cur curChars l).flatten = cur ++ l
        ∧ ∀ b ∈ createBatchesLoop 15 800 cur curChars l, goodBatch b := by
  induction l with
  | nil =>
    intro cur curChars hc hlen hsum
    by_cases hce : cur.isEmpty
    · simp_all [createBatchesLoop, List.isEmpty_iff]
    · have hres : createBatchesLoop 15 800 cur curChars [] = [cur] := by
        simp [createBatchesLoop, hce]
      rw [hres]
      refine ⟨by simp, ?_⟩
      intro b hb
      rw [List.mem_singleton] at hb
      subst hb
      exact ⟨by simpa [List.isEmpty_iff] using hce, Or.inl ⟨hlen, hsum⟩⟩
  | cons e rest ih =>
    intro cur curChars hc hlen hsum
    by_cases hbig : 800 < entryChars e
    · obtain ⟨ihf, ihg⟩ := ih [] 0 rfl (by simp) (by simp [charSum])
      by_cases hce : cur.isEmpty
      · have hcur : cur = [] := List.isEmpty_iff.mp hce
        subst hcur
        have hres : createBatchesLoop 15 800 [] curChars (e :: rest)
            = [e] :: createBatchesLoop 15 800 [] 0 rest := by
          simp [createBatchesLoop, hbig]
        rw [hres]
        refine ⟨by simp [ihf], ?_⟩
        intro b hb
        rcases List.mem_cons.mp hb with hb | hb
        · subst hb; exact ⟨by simp, Or.inr ⟨e, rfl, hbig⟩⟩
        · exact ihg b hb
      · have hcur : cur ≠ [] := by simpa [List.isEmpty_iff] using hce
        have hres : createBatchesLoop 15 800 cur curChars (e :: rest)
            = cur :: [e] :: createBatchesLoop 15 800 [] 0 rest := by
          simp [createBatchesLoop, hbig, hce]
        rw [hres]
        refine ⟨by simp [ihf], ?_⟩
        intro b hb
        rcases List.mem_cons.mp hb with hb | hb
        · subst hb; exact ⟨hcur, Or.inl ⟨hlen, hsum⟩⟩
        rcases List.mem_cons.mp hb with hb | hb
        · subst hb; exact ⟨by simp, Or.inr ⟨e, rfl, hbig⟩⟩
        · exact ihg b hb
    · by_cases hflush :
          (!cur.isEmpty &&
            (decide (15 ≤ cur.length) || decide (800 < curChars + entryChars e))) = true
      · have hcur : cur ≠ [] := by
          rcases Bool.and_eq_true_iff.mp hflush with ⟨h1, _⟩
          simpa [List.isEmpty_iff] using h1
        obtain ⟨ihf, ihg⟩ := ih [e] (entryChars e)
          (by simp [charSum]) (by simp) (by simpa [charSum] using Nat.le_of_not_lt hbig)
        have hres : createBatchesLoop 15 800 cur curChars (e :: rest)
            = cur :: createBatchesLoop 15 800 [e] (entryChars e) rest := by
          simp [createBatchesLoop, hbig, hflush]
        rw [hres]
        refine ⟨by simp [ihf], ?_⟩
        intro b hb
        rcases List.mem_cons.mp hb with hb | hb
        · subst hb; exact ⟨hcur, Or.inl ⟨hlen, hsum⟩⟩
        · exact ihg b hb
      · have hlen2 : (cur ++ [e]).length ≤ 15 := by
          by_cases hce : cur.isEmpty
          · have : cur = [] := List.isEmpty_iff.mp hce
            subst this; simp
          · have h1 : (!cur.isEmpty) = true := by simpa using hce
            have h2 : ¬ 15 ≤ cur.length := by
              intro hcontra
              exact hflush (by simp [h1, hcontra])
            simp only [List.length_append, List.length_singleton]
            omega
        have hsum2 : charSum (cur ++ [e]) ≤ 800 := by
          by_cases hce : cur.isEmpty
          · have : cur = [] := List.isEmpty_iff.mp hce
            subst this
            simpa [charSum] using Nat.le_of_not_lt hbig
          · have h1 : (!cur.isEmpty) = true := by simpa using hce
            have h2 : ¬ 800 < curChars + entryChars e := by
              intro hcontra
              exact hflush (by simp [h1, hcontra])
            rw [charSum_append, ← hc]
            simpa [charSum] using Nat.le_of_not_lt h2
        obtain ⟨ihf, ihg⟩ := ih (cur ++ [e]) (curChars + entryChars e)
          (by rw [charSum_append, hc]; simp [charSum]) hlen2 hsum2
        have hres : createBatchesLoop 15 800 cur curChars (e :: rest)
            = createBatchesLoop 15 800 (cur ++ [e]) (curChars + entryChars e) rest := by
          simp [createBatchesLoop, hbig, hflush]
        rw [hres]
        refine ⟨by rw [ihf]; simp, ?_⟩
        intro b hb
        exact ihg b hb

/-- C9: the Phase-4 batching operation partitions the correction entries
in order: the batches concatenate back to the input, and every batch is
non-empty and either holds at most 15 entries totalling at most 800
characters, or is a single entry whose own text exceeds 800 characters. -/
theorem create_transcript_batches_partition (entries : List CorrectionEntry) :
    (create_transcript_batches 15 800 entries).flatten = entries
      ∧ ∀ b ∈ create_transcript_batches 15 800 entries, goodBatch b := by
  have h := createBatchesLoop_spec entries [] 0 rfl (by simp) (by simp [charSum])
  simpa [create_transcript_batches] using h

theorem length_insertAfterEq (lt : α → α → Bool) (a : α) (l : List α) :
    (insertAfterEq lt a l).length = l.length + 1 := by
  induction l with
  | nil => rfl
  | cons b t ih =>
    by_cases hb : lt a b <;> simp [insertAfterEq, hb, ih]

theorem length_stableSortBy_aux (lt : α → α → Bool) (l acc : List α) :
    (l.foldl (fun acc a => insertAfterEq lt a acc) acc).length
      = acc.length + l.length := by
  induction l generalizing acc with
  | nil => simp
  | cons a t ih => simp [ih, length_insertAfterEq]; omega

theorem length_stableSortBy (lt : α → α → Bool) (l : List α) :
    (stableSortBy lt l).length = l.length := by
  unfold stableSortBy
  rw [length_stableSortBy_aux]
  simp

theorem anchorCond_true_iff (window : Int) (a v : Violation) :
    anchorCond window a v = true ↔
      (a.rule_id = v.rule_id ∧ |v.timestamp_ms - a.timestamp_ms| < window) := by
  simp [anchorCond]

theorem dropLast_append_singleton (l : List α) (a : α) :
    (l ++ [a]).dropLast = l := by
  simp

theorem dedupRuns_cons (window : Int) (a : Violation) (rest : List Violation) :
    dedupRuns window (a :: rest)
      = runSurvivor a a (rest.takeWhile (anchorCond window a))
          :: dedupRuns window (rest.dropWhile (anchorCond window a)) := by
  rw [dedupRuns]

theorem dedupLoop_spec (window : Int) (l : List Violation) :
    ∀ (a k : Violation) (res : List Violation),
      dedupLoop window (some a) (res ++ [k]) l
        = res ++ runSurvivor a k (l.takeWhile (anchorCond window a))
            :: dedupRuns window (l.dropWhile (anchorCond window a)) := by
  induction l with
  | nil => intro a k res; simp [dedupLoop, runSurvivor, dedupRuns]
  | cons v rest ih =>
    intro a k res
    by_cases hc : a.rule_id = v.rule_id ∧ |v.timestamp_ms - a.timestamp_ms| < window
    · have hcb : anchorCond window a v = true := (anchorCond_true_iff window a v).mpr hc
      have hkept :
          (if a.confidence < v.confidence
            then (res ++ [k]).dropLast ++ [v] else res ++ [k])
            = res ++ [if a.confidence < v.confidence then v else k] := by
        by_cases hconf : a.confidence < v.confidence
        · simp [hconf, dropLast_append_singleton]
        · simp [hconf]
      calc dedupLoop window (some a) (res ++ [k]) (v :: rest)
          = dedupLoop window (some a)
              (res ++ [if a.confidence < v.confidence then v else k]) rest := by
            simp only [dedupLoop, if_pos hc]
            rw [hkept]
        _ = res ++ runSurvivor a (if a.confidence < v.confidence then v else k)
              (rest.takeWhile (anchorCond window a))
              :: dedupRuns window (rest.dropWhile (anchorCond window a)) := ih a _ res
        _ = res ++ runSurvivor a k ((v :: rest).takeWhile (anchorCond window a))
              :: dedupRuns window ((v :: rest).dropWhile (anchorCond window a)) := by
            rw [List.takeWhile_cons_of_pos hcb, List.dropWhile_cons_of_pos hcb]
            rfl
    · have hcb : anchorCond window a v = false := by
        rw [← Bool.not_eq_true]
        intro h
        exact hc ((anchorCond_true_iff window a v).mp h)
      calc dedupLoop window (some a) (res ++ [k]) (v :: rest)
          = dedupLoop window (some v) ((res ++ [k]) ++ [v]) rest := by
            simp only [dedupLoop, if_neg hc]
        _ = (res ++ [k]) ++ runSurvivor v v (rest.takeWhile (anchorCond window v))
              :: dedupRuns window (rest.dropWhile (anchorCond window v)) := ih v v _
        _ = res ++ runSurvivor a k ((v :: rest).takeWhile (anchorCond window a))
              :: dedupRuns window ((v :: rest).dropWhile (anchorCond window a)) := by
            rw [List.takeWhile_cons_of_neg (by simp [hcb]),
              List.dropWhile_cons_of_neg (by simp [hcb]),
              dedupRuns_cons]
            simp [runSurvivor]

/-- C8 counterexample: on three same-rule violations at 0 s / 10 s / 20 s
with confidences 0.5 / 0.9 / 0.7, the filter returns only the third one.
The second and third are consecutive in sorted order, share the rule id,
and are less than 30000 ms apart, yet the survivor is the third — the
strictly lower-confidence of the pair — because the scan replaces the
kept slot whenever the newcomer beats the run's *first* violation
(confidence 0.5), not the currently kept one. -/
theorem deduplication_counterexample :
    deduplication_apply 30000 [c8V1, c8V2, c8V3] = [c8V3]
      ∧ c8V3.confidence < c8V2.confidence
      ∧ c8V2.rule_id = c8V3.rule_id
      ∧ |c8V3.timestamp_ms - c8V2.timestamp_ms| < 30000
      ∧ sortViolations [c8V1, c8V2, c8V3] = [c8V1, c8V2, c8V3] := by
  refine ⟨by decide, by decide, by decide, by decide, by decide⟩

/-- C8 amended: the deduplication filter sorts by
`(rule_id, timestamp_ms)` and scans the sorted list in anchored runs:
the anchor is the most recent violation that was appended (not merged);
each following violation with the anchor's rule id and a timestamp gap
to the *anchor* below 30000 ms is merged into the kept slot, which it
replaces exactly when its confidence strictly exceeds the *anchor's*
confidence.  (Hence the survivor of a run is the last member beating the
anchor — not necessarily the highest-confidence member — and two
surviving same-rule violations may be closer than the window.) -/
theorem deduplication_apply_eq_runs (window : Int) (vs : List Violation) :
    deduplication_apply window vs = dedupRuns window (sortViolations vs) := by
  unfold deduplication_apply
  by_cases h : vs.isEmpty
  · have : vs = [] := List.isEmpty_iff.mp h
    subst this
    simp [sortViolations, stableSortBy, dedupRuns]
  · rw [if_neg h]
    have hlen : (sortViolations vs).length = vs.length := by
      unfold sortViolations
      exact length_stableSortBy _ _
    cases hs : sortViolations vs with
    | nil =>
      exfalso
      rw [hs] at hlen
      cases vs with
      | nil => exact h rfl
      | cons a t => simp at hlen
    | cons a rest =>
      have : dedupLoop window none [] (a :: rest)
          = dedupLoop window (some a) ([] ++ [a]) rest := by
        simp [dedupLoop]
      rw [this, dedupLoop_spec window rest a a [], dedupRuns_cons]
      simp [runSurvivor]

theorem getElem?_setViolationStatus (l : List Violation) (i : Nat) (s : String)
    (j : Nat) :
    (setViolationStatus l i s)[j]?
      = if i = j then (l[j]?).map (fun v => { v with status := s }) else l[j]? := by
  induction l generalizing i j with
  | nil => cases i <;> simp [setViolationStatus]
  | cons v rest ih =>
    cases i with
    | zero =>
      cases j with
      | zero => simp [setViolationStatus]
      | succ j2 => simp [setViolationStatus]
    | succ i2 =>
      cases j with
      | zero => simp [setViolationStatus]
      | succ j2 =>
        simp only [setViolationStatus, List.getElem?_cons_succ, ih,
          Nat.succ_eq_add_one, Nat.add_right_cancel_iff]

theorem length_setViolationStatus (l : List Violation) (i : Nat) (s : String) :
    (setViolationStatus l i s).length = l.length := by
  induction l generalizing i with
  | nil => cases i <;> rfl
  | cons v rest ih => cases i <;> simp [setViolationStatus, ih]

theorem applyStatusUpdate_frame (doc : ComplianceDoc) (u : StatusUpdate) :
    (applyStatusUpdate doc u).rules = doc.rules
      ∧ (applyStatusUpdate doc u).processing_time_ms = doc.processing_time_ms
      ∧ (applyStatusUpdate doc u).report.total_rules = doc.report.total_rules
      ∧ (applyStatusUpdate doc u).report.total_segments_checked
          = doc.report.total_segments_checked
      ∧ (applyStatusUpdate doc u).report.summary = doc.report.summary
      ∧ (applyStatusUpdate doc u).report.compliance_score
          = doc.report.compliance_score
      ∧ (applyStatusUpdate doc u).report.violations.length
          = doc.report.violations.length := by
  unfold applyStatusUpdate
  by_cases h : 0 ≤ u.index ∧ u.index < (doc.report.violations.length : Int)
  · simp [h, length_setViolationStatus]
  · simp [h]

theorem applyStatusUpdate_getElem? (doc : ComplianceDoc) (u : StatusUpdate)
    (j : Nat) :
    (applyStatusUpdate doc u).report.violations[j]?
      = (doc.report.violations[j]?).map
          (fun v => { v with status := if u.index = (j : Int) then u.status else v.status }) := by
  unfold applyStatusUpdate
  by_cases h : 0 ≤ u.index ∧ u.index < (doc.report.violations.length : Int)
  · rw [if_pos h]
    simp only
    rw [getElem?_setViolationStatus]
    by_cases hij : u.index.toNat = j
    · have hidx : u.index = (j : Int) := by omega
      rw [if_pos hij, hidx]
      simp
    · have hidx : u.index ≠ (j : Int) := by omega
      rw [if_neg hij]
      simp only [hidx, if_neg, if_false]
      cases hj : doc.report.violations[j]? with
      | none => rfl
      | some v => rfl
  · rw [if_neg h]
    by_cases hidx : u.index = (j : Int)
    · have hrange : (doc.report.violations.length : Int) ≤ u.index := by omega
      have hnone : doc.report.violations[j]? = none := by
        rw [List.getElem?_eq_none_iff]
        omega
      rw [hnone]
      rfl
    · simp only [hidx, if_neg, if_false]
      cases hj : doc.report.violations[j]? with
      | none => rfl
      | some v => rfl

theorem update_statuses_getElem? (updates : List StatusUpdate) :
    ∀ (doc : ComplianceDoc) (j : Nat),
      (update_violation_statuses doc updates).report.violations[j]?
        = (doc.report.violations[j]?).map
            (fun v => { v with status := lastStatusFor updates j v.status }) := by
  induction updates with
  | nil =>
    intro doc j
    unfold update_violation_statuses lastStatusFor
    simp only [List.foldl_nil]
    cases hj : doc.report.violations[j]? with
    | none => rfl
    | some v => rfl
  | cons u rest ih =>
    intro doc j
    unfold update_violation_statuses at *
    simp only [List.foldl_cons]
    rw [ih (applyStatusUpdate doc u) j, applyStatusUpdate_getElem?]
    cases hj : doc.report.violations[j]? with
    | none => rfl
    | some v => rfl

/-- C10: a violation-status PATCH sets, for each list position, the
status given by the last update naming that position (updates with
out-of-range or negative indices touch nothing, and the request still
succeeds); every other field of every violation — captured by the
position-wise structure update leaving all non-`status` fields of `v`
intact — and every other part of the persisted compliance document are
unchanged. -/
theorem update_violation_statuses_spec (doc : ComplianceDoc)
    (updates : List StatusUpdate) :
    (update_violation_statuses doc updates).rules = doc.rules
      ∧ (update_violation_statuses doc updates).processing_time_ms
          = doc.processing_time_ms
      ∧ (update_violation_statuses doc updates).report.total_rules
          = doc.report.total_rules
      ∧ (update_violation_statuses doc updates).report.total_segments_checked
          = doc.report.total_segments_checked
      ∧ (update_violation_statuses doc updates).report.summary
          = doc.report.summary
      ∧ (update_violation_statuses doc updates).report.compliance_score
          = doc.report.compliance_score
      ∧ (update_violation_statuses doc updates).report.violations.length
          = doc.report.violations.length
      ∧ ∀ j : Nat,
          (update_violation_statuses doc updates).report.violations[j]?
            = (doc.report.violations[j]?).map
                (fun v => { v with status := lastStatusFor updates j v.status }) := by
  induction updates generalizing doc with
  | nil =>
    refine ⟨rfl, rfl, rfl, rfl, rfl, rfl, rfl, ?_⟩
    exact update_statuses_getElem? [] doc
  | cons u rest ih =>
    have hstep := applyStatusUpdate_frame doc u
    have hrest := ih (applyStatusUpdate doc u)
    unfold update_violation_statuses at *
    simp only [List.foldl_cons]
    exact ⟨hrest.1.trans hstep.1,
      hrest.2.1.trans hstep.2.1,
      hrest.2.2.1.trans hstep.2.2.1,
      hrest.2.2.2.1.trans hstep.2.2.2.1,
      hrest.2.2.2.2.1.trans hstep.2.2.2.2.1,
      hrest.2.2.2.2.2.1.trans hstep.2.2.2.2.2.1,
      hrest.2.2.2.2.2.2.1.trans hstep.2.2.2.2.2.2,
      update_statuses_getElem? (u :: rest) doc⟩

/-- C1: the parser cannot return the Violations the claim describes,
because every constructed `Violation` carries `source="audio"`, which the
`Violation` schema's `source` Literal (`transcript`/`ocr`/`vision`)
rejects.  On a well-formed one-object array whose fields are all valid
(the severity `"medium"` is in the allowed set), the pydantic constructor
raises and `_parse_violations` propagates the error instead of returning
a list — so the enclosing chunk audit catches it and reports zero
violations. -/
theorem parse_violations_source_rejected :
    parse_violations c1Rules [] [] [c1Item] = .error "pydantic ValidationError"
      ∧ (parseViolationItem c1Rules [] [] c1Item).source = "audio"
      ∧ validSource "audio" = false
      ∧ validSeverity (parseViolationItem c1Rules [] [] c1Item).severity = true
      ∧ violationSchemaOk (parseViolationItem c1Rules [] [] c1Item) = false := by
  refine ⟨by decide, by decide, by decide, by decide, by decide⟩

/-- C2: the audit operation's post-map processing is exactly
concatenate-and-sort (`auditReduce`) — it never invokes `run_filters`.
A keyword-less exact-rule violation reported by the LLM therefore
survives into the report, even though the violation passes the
confidence gate, its rule is exact-mode, and the filter chain itself
(which the filters module documents as running post-map, pre-reduce)
would have dropped it: its keyword regex misses `original_text` and no
keyword's pinyin occurs as a contiguous syllable window in the full
transcript's pinyin. -/
theorem audit_omits_filter_chain :
    (auditReduce 1 1 "" [[c2Bad]]).violations = [c2Bad]
      ∧ run_filters [c2Bad] [builtinRule12] c2FullText [] (mkRat 7 10) 30000 = []
      ∧ builtinRule12.check_mode = "exact"
      ∧ c2Bad.rule_id = builtinRule12.id
      ∧ mkRat 7 10 ≤ c2Bad.confidence
      ∧ (patternSearch builtinRule12.keywords c2Bad.original_text).isSome = false
      ∧ (pinyinMatch c2FullText
          ((exactPinyinPatterns 12).getD [])).isSome = false := by
  refine ⟨by decide, by decide, by decide, by decide, by decide, by decide, by decide⟩

/-- C4 counterexample: submit a file (hash `"h1"`) to a fresh server —
task `"t1"` is registered and the index maps `"h1" ↦ "t1"` — then submit
the same file again before the first worker has persisted
`transcript.json`.  The second call does *not* return `"t1"` with
`existing=true`: the index hit is treated as stale, a fresh task `"t2"`
is registered, and the response carries `existing=false`. -/
theorem submit_twice_counterexample :
    submit_transcript_endpoint { hashIndex := [], completed := [] } "h1" "t1"
        = ({ task_id := "t1", status := "pending", existing := false },
            c4StateAfterFirst)
      ∧ submit_transcript_endpoint c4StateAfterFirst "h1" "t2"
        = ({ task_id := "t2", status := "pending", existing := false },
            { hashIndex := [("h1", "t2")], completed := [] }) := by
  refine ⟨by decide, by decide⟩

/-- C4 amended: resubmitting a file returns the task id produced by the
earlier submission with `existing=true` — and leaves the server state
untouched — provided the hash index maps the file's hash to a task whose
`transcript.json` exists (i.e. the earlier task completed); a
resubmission before that point instead registers a fresh task with
`existing=false` and remaps the hash. -/
theorem submit_again_returns_existing (st : SubmitState)
    (fileHash tid freshId : String)
    (hIdx : lookupHash st.hashIndex fileHash = some tid)
    (hDone : hasTranscriptFile st tid = true) :
    submit_transcript_endpoint st fileHash freshId
      = ({ task_id := tid, status := "completed", existing := true }, st) := by
  unfold submit_transcript_endpoint lookup_by_hash
  rw [hIdx]
  simp [hDone]

/-- Witness for the C4 amended theorem at a concrete completed state. -/
theorem submit_again_returns_existing_witness :
    lookupHash c4StateDone.hashIndex "h1" = some "t1"
      ∧ hasTranscriptFile c4StateDone "t1" = true
      ∧ submit_transcript_endpoint c4StateDone "h1" "t2"
        = ({ task_id := "t1", status := "completed", existing := true },
            c4StateDone) :=
  ⟨by decide, by decide,
    submit_again_returns_existing c4StateDone "h1" "t1" "t2" (by decide) (by decide)⟩

/-- C5: the transcript worker has exactly two terminal transitions —
pipeline success ends `completed` with the transcript persisted, and a
pipeline exception ends `failed` carrying that exception's own message.
There is no third branch: nothing measures elapsed time against
`task_timeout_seconds` (the setting is read by no code), so no
"timeout"-failure transition exists and a hung pipeline call simply
never terminates the task. -/
theorem run_transcript_worker_transitions
    (o : Except String (List TranscriptEntrySchema)) :
    ((run_transcript_worker o).status = "completed"
        ∧ (run_transcript_worker o).error = none
        ∧ (run_transcript_worker o).persisted = true)
      ∨ (∃ msg, o = .error msg
          ∧ (run_transcript_worker o).status = "failed"
          ∧ (run_transcript_worker o).error = some msg) := by
  cases o with
  | ok r => exact Or.inl ⟨rfl, rfl, rfl⟩
  | error m => exact Or.inr ⟨m, rfl, rfl, rfl⟩

/-- C6: for a single ASR segment spanning 61000-62000 ms, the stored
transcript entry has `timestamp_ms = 61000` but `end_ms = 0`: the
pipeline's `TranscriptEntry` carries no `end_ms` and the task store
never passes one, so `TranscriptEntrySchema`'s default `0` is persisted
and `end_ms ≥ timestamp_ms` fails for every entry with a positive
start time. -/
theorem stored_transcript_end_ms_zero :
    stored_transcript [c6Segment] []
        = [{ timestamp := "01:01", timestamp_ms := 61000, end_ms := 0,
             speaker := "Speaker 1", text := "你好", text_corrected := "你好" }]
      ∧ ((stored_transcript [c6Segment] []).all
            (fun e => decide (e.timestamp_ms ≤ e.end_ms))) = false := by
  refine ⟨by decide, by decide⟩

/-- C7: with the default `max_retries = 2` and `retry_delay = 2.0`, a
server that answers HTTP 404 on every attempt is retried twice — three
attempts in total, sleeping 2 s then 4 s — before the error propagates,
because the retry clause catches `httpx.HTTPStatusError`, which covers
4xx as well as 5xx.  The claim (and the method's own docstring) says a
4xx fails immediately with no retry, i.e. a one-attempt trace. -/
theorem chat_retries_on_http_4xx :
    chat (fun _ => .error (.httpStatus 404)) 2 2
      = { attemptsMade := 3, delays := [2, 4],
          outcome := .error (.httpStatus 404) } := by
  rw [chat, chatAttempts.eq_def]
  norm_num [caughtByRetry]
  rw [chatAttempts.eq_def]
  norm_num [caughtByRetry]
  rw [chatAttempts.eq_def]
  norm_num [caughtByRetry]

end Copernicus
